import Mathlib

/-!
Shallow embedding of the traQ message repository
(`repository/message_impl.go`, current gorm-v2 implementation, together
with the legacy revision of `UpdateMessage`) and proofs of the spec
claims about it.

Modelling conventions:
* `UUID` is a `Nat`; `0` plays the role of `uuid.Nil`.
* `Time` is a `Nat`; the zero value of Go's `time.Time` corresponds to `0`.
* The database is an explicit record of tables (lists of rows).  gorm's
  soft-delete scope is modelled by filtering `deletedAt = none` in every
  default read (`First`/`Take`/`Find`) and update.
* `uuid.NewV4` is modelled by a fresh-id counter `nextId` in the state.
* The event hub is an append-only list of events in the system state.
* `repo.db.Transaction(...)` is modelled by `runTx`: the body either
  errors (roll back: the caller keeps the old state, no events) or
  returns the new database, after which the events are appended.
* `utils/message.Parse` lives outside the embedded files; operations that
  need its citation list take it as a function parameter.
-/

namespace Traq

abbrev UUID := Nat

abbrev Time := Nat

/-- Embedding of `model.Message`: id, author, channel, text, created/updated/deleted-at. -/
structure Message where
  id : UUID
  userId : UUID
  channelId : UUID
  text : String
  createdAt : Time
  updatedAt : Time
  deletedAt : Option Time
deriving DecidableEq, Repr

/-- Embedding of `model.ArchivedMessage`: snapshot of a message revision. -/
structure ArchivedMessage where
  id : UUID
  messageId : UUID
  userId : UUID
  text : String
  dateTime : Time
deriving DecidableEq, Repr

/-- Embedding of `model.ChannelLatestMessage`: per-channel latest-message pointer. -/
structure ChannelLatestMessage where
  channelId : UUID
  messageId : UUID
  dateTime : Time
deriving DecidableEq, Repr

/-- Embedding of `model.Unread`: per-(user, message) unread marker. -/
structure Unread where
  userId : UUID
  messageId : UUID
  noticeable : Bool
deriving DecidableEq, Repr

/-- Embedding of `model.Pin`: pin record referencing a message. -/
structure Pin where
  id : UUID
  messageId : UUID
deriving DecidableEq, Repr

/-- Embedding of `model.ClipFolderMessage`: clip-folder association referencing a message. -/
structure ClipFolderMessage where
  folderId : UUID
  messageId : UUID
deriving DecidableEq, Repr

/-- Embedding of `model.MessageStamp`: reaction counter keyed by (message, stamp, user). -/
structure MessageStamp where
  messageId : UUID
  stampId : UUID
  userId : UUID
  count : Int
  createdAt : Time
  updatedAt : Time
deriving DecidableEq, Repr

/-- Embedding of `model.Channel`, restricted to the columns the embedded queries read. -/
structure Channel where
  id : UUID
  isPublic : Bool
  isForced : Bool
  deletedAt : Option Time
deriving DecidableEq, Repr

/-- The relational store: one list of rows per table, plus the wall clock
(`now`, read by gorm for created/updated/deleted timestamps) and the
fresh-uuid source `nextId` modelling `uuid.NewV4`. -/
structure DB where
  messages : List Message
  archived : List ArchivedMessage
  channelLatest : List ChannelLatestMessage
  unreads : List Unread
  pins : List Pin
  clipFolderMessages : List ClipFolderMessage
  messageStamps : List MessageStamp
  channels : List Channel
  subscriptions : List (UUID × UUID)
  now : Time
  nextId : UUID
deriving DecidableEq, Repr

/-- Events published on the hub, with the payload fields the Go code puts
into `hub.Fields`. -/
inductive Event where
  | messageCreated (messageId : UUID) (m : Message) (citations : List UUID)
  | messageCited (messageId : UUID) (m : Message) (citedIds : List UUID)
  | messageUpdated (messageId : UUID) (oldMessage newMessage : Message)
  | messageDeleted (messageId : UUID) (m : Message) (deletedUnreads : List Unread)
  | messageUnread (messageId userId : UUID) (noticeable : Bool)
  | channelRead (channelId userId : UUID) (readMessagesNum : Nat)
  | messageStamped (messageId stampId userId : UUID) (count : Int) (createdAt : Time)
  | messageUnstamped (messageId stampId userId : UUID)
deriving DecidableEq, Repr

/-- Repository-level errors.  `recordNotFound` is gorm's raw
`ErrRecordNotFound`; `convertError` maps it to the repository's
`notFound` (`ErrNotFound`).  `textEmpty` is the legacy
`errors.New("text is empty")`. -/
inductive RepoError where
  | nilId
  | notFound
  | recordNotFound
  | textEmpty
deriving DecidableEq, Repr

/-- Embedding of `convertError`: translate gorm's record-not-found into `ErrNotFound`. -/
def convertError : RepoError → RepoError
  | .recordNotFound => .notFound
  | e => e

/-- Repository system state: the database plus the list of events
published on the hub so far. -/
structure Sys where
  db : DB
  events : List Event
deriving DecidableEq, Repr

/-- Embedding of `repo.db.Transaction(body)` followed by hub publication: if the body
errors the transaction rolls back (the caller keeps the old state) and
the error is returned; only on success are the events appended. -/
def runTx {α : Type} (s : Sys) (body : DB → Except RepoError (DB × α))
    (pub : α → List Event) : Except RepoError (α × Sys) :=
  match body s.db with
  | .error e => .error e
  | .ok (db2, a) => .ok (a, { db := db2, events := s.events ++ pub a })

/-- gorm's soft-delete row scope: a default read sees a message only when
its `deleted_at` is NULL.  `msgScope mid` is the predicate of
`Where(&model.Message{ID: mid})` under that scope. -/
def msgScope (mid : UUID) (m : Message) : Bool :=
  m.id == mid && m.deletedAt == none

/-- The message row built by `CreateMessage`: fresh uuid, the given
author, channel and text, timestamps filled by gorm at insert time. -/
def newMsg (db : DB) (userId channelId : UUID) (text : String) : Message :=
  { id := db.nextId, userId := userId, channelId := channelId, text := text,
    createdAt := db.now, updatedAt := db.now, deletedAt := none }

/-- Upsert of the per-channel pointer row, as performed by
`Clauses(clause.OnConflict).Create`: replace the row keyed by the same
channel if one exists, otherwise insert. -/
def clmUpsert (rows : List ChannelLatestMessage) (clm : ChannelLatestMessage) :
    List ChannelLatestMessage :=
  if rows.any (fun r => r.channelId == clm.channelId) then
    rows.map (fun r => if r.channelId == clm.channelId then clm else r)
  else
    rows ++ [clm]

/-- Transaction body of `CreateMessage`: insert the new message row and
upsert the channel's latest-message pointer. -/
def createTx (userId channelId : UUID) (text : String) (db : DB) :
    Except RepoError (DB × Message) :=
  let m := newMsg db userId channelId text
  let db2 : DB :=
    { db with
      messages := db.messages ++ [m]
      channelLatest := clmUpsert db.channelLatest
        { channelId := m.channelId, messageId := m.id, dateTime := m.createdAt }
      nextId := db.nextId + 1 }
  .ok (db2, m)

/-- Events of `CreateMessage`: `MessageCreated` always, `MessageCited`
when the parse result's citation list is non-empty. -/
def createEvents (parse : String → List UUID) (m : Message) : List Event :=
  [.messageCreated m.id m (parse m.text)] ++
    (if (parse m.text).isEmpty then [] else [.messageCited m.id m (parse m.text)])

/-- Embedding of `GormRepository.CreateMessage` (current revision): reject nil ids,
run the insert/upsert transaction, then publish. -/
def createMessage (parse : String → List UUID) (s : Sys)
    (userId channelId : UUID) (text : String) :
    Except RepoError (Message × Sys) :=
  if userId == 0 || channelId == 0 then .error .nilId
  else runTx s (createTx userId channelId text) (createEvents parse)

/-- Embedding of `GormRepository.GetMessageByID`: nil id yields `ErrNotFound` without
touching the store; otherwise a soft-delete-scoped `Take`, with
`convertError` on failure. -/
def getMessageByID (db : DB) (messageId : UUID) : Except RepoError Message :=
  if messageId == 0 then .error .notFound
  else
    match db.messages.find? (msgScope messageId) with
    | none => .error (convertError .recordNotFound)
    | some m => .ok m

/-- The scoped UPDATE issued by `tx.Model(&old).Update("text", text)`:
set the text (and, via gorm's auto-update, `updated_at`) on every
in-scope row with the message's id. -/
def editText (messageId : UUID) (text : String) (now : Time) (l : List Message) :
    List Message :=
  l.map (fun m =>
    if msgScope messageId m then { m with text := text, updatedAt := now } else m)

/-- The scoped soft-delete UPDATE issued by `tx.Delete(&m)`: stamp
`deleted_at` on every in-scope row with the message's id. -/
def softDeleteMsg (messageId : UUID) (now : Time) (l : List Message) : List Message :=
  l.map (fun m =>
    if msgScope messageId m then { m with deletedAt := some now } else m)

/-- Transaction body of `UpdateMessage` (current revision): load the
message (`convertError` on not-found), archive the pre-edit state,
apply the text change (gorm refreshes `updated_at`), then re-read the
row for the canonical post-edit state. -/
def updateTx (messageId : UUID) (text : String) (db : DB) :
    Except RepoError (DB × (Message × Message)) :=
  match db.messages.find? (msgScope messageId) with
  | none => .error (convertError .recordNotFound)
  | some old =>
    let arch : ArchivedMessage :=
      { id := db.nextId, messageId := old.id, userId := old.userId,
        text := old.text, dateTime := old.updatedAt }
    let db2 : DB :=
      { db with
        archived := db.archived ++ [arch]
        messages := editText messageId text db.now db.messages
        nextId := db.nextId + 1 }
    match db2.messages.find? (msgScope messageId) with
    | none => .error .recordNotFound
    | some newRow => .ok (db2, (old, newRow))

/-- Events of `UpdateMessage`: one `MessageUpdated` with old and new rows. -/
def updateEvents (messageId : UUID) (p : Message × Message) : List Event :=
  [.messageUpdated messageId p.1 p.2]

/-- Embedding of `GormRepository.UpdateMessage` (current revision,
`src/unnamed/part_000`): reject nil id, run the archive-then-edit
transaction, then publish.  There is no empty-text check here. -/
def updateMessage (s : Sys) (messageId : UUID) (text : String) :
    Except RepoError ((Message × Message) × Sys) :=
  if messageId == 0 then .error .nilId
  else runTx s (updateTx messageId text) (updateEvents messageId)

/-- Embedding of `GormRepository.UpdateMessage` (legacy revision,
`src/repository/message_impl.go`): identical transaction, but an empty
`text` is rejected up front with `errors.New("text is empty")`. -/
def updateMessageLegacy (s : Sys) (messageId : UUID) (text : String) :
    Except RepoError ((Message × Message) × Sys) :=
  if messageId == 0 then .error .nilId
  else if text.length == 0 then .error .textEmpty
  else runTx s (updateTx messageId text) (updateEvents messageId)

/-- Transaction body of `DeleteMessage`: load the message, capture its
unread markers for the event payload, soft-delete the message, and
hard-delete the unread markers, pins and clip-folder associations that
reference it. -/
def deleteTx (messageId : UUID) (db : DB) :
    Except RepoError (DB × (Message × List Unread)) :=
  match db.messages.find? (msgScope messageId) with
  | none => .error (convertError .recordNotFound)
  | some m =>
    let unreadRows := db.unreads.filter (fun u => u.messageId == messageId)
    let db2 : DB :=
      { db with
        messages := softDeleteMsg messageId db.now db.messages
        unreads := db.unreads.filter (fun u => !(u.messageId == messageId))
        pins := db.pins.filter (fun p => !(p.messageId == messageId))
        clipFolderMessages :=
          db.clipFolderMessages.filter (fun c => !(c.messageId == messageId)) }
    .ok (db2, (m, unreadRows))

/-- Events of `DeleteMessage`: one `MessageDeleted` with the message and
the cleared unread markers. -/
def deleteEvents (messageId : UUID) (p : Message × List Unread) : List Event :=
  [.messageDeleted messageId p.1 p.2]

/-- Embedding of `GormRepository.DeleteMessage`: reject nil id, run the cascade
transaction, then publish. -/
def deleteMessage (s : Sys) (messageId : UUID) :
    Except RepoError ((Message × List Unread) × Sys) :=
  if messageId == 0 then .error .nilId
  else runTx s (deleteTx messageId) (deleteEvents messageId)

/-- Embedding of `repository.MessagesQuery`, restricted to the fields the embedded
`GetMessages` reads.  `sinceTime`/`untilTime` model the
`optional.NullTime` fields. -/
structure MessagesQuery where
  channel : UUID
  user : UUID
  channelsSubscribedByUser : UUID
  sinceTime : Option Time
  untilTime : Option Time
  inclusive : Bool
  limit : Int
  offset : Int
  asc : Bool
  excludeDMs : Bool
  disablePreload : Bool
deriving DecidableEq, Repr

/-- Condition guarding `GetMessages`' specialized activity path: public
channels only, no other filter, a positive limit. -/
def specialPath (q : MessagesQuery) : Bool :=
  q.excludeDMs && q.channel == 0 && q.user == 0
    && q.channelsSubscribedByUser == 0
    && q.sinceTime == none && q.untilTime == none && decide (0 < q.limit)

/-- Rows produced by the activity path's raw SQL: non-deleted messages
joined to their (public) channel.  The raw SQL carries no LIMIT, OFFSET
or ORDER BY clause; gorm does not merge the chained `Limit(limit+1)`
into a `Raw` query, so every matching row comes back. -/
def activityRows (db : DB) : List Message :=
  db.messages.filter (fun m =>
    m.deletedAt == none &&
      (match db.channels.find? (fun c => c.id == m.channelId) with
       | none => false
       | some c => c.isPublic))

/-- Created-at window conditions of `GetMessages`. -/
def timeOk (q : MessagesQuery) (m : Message) : Bool :=
  if q.inclusive then
    (match q.sinceTime with | none => true | some t => decide (t ≤ m.createdAt)) &&
    (match q.untilTime with | none => true | some t => decide (m.createdAt ≤ t))
  else
    (match q.sinceTime with | none => true | some t => decide (t < m.createdAt)) &&
    (match q.untilTime with | none => true | some t => decide (m.createdAt < t))

/-- WHERE clause of `GetMessages`' general path, including the channels
join that is added when a subscription filter or `ExcludeDMs` is set. -/
def generalMatch (db : DB) (q : MessagesQuery) (m : Message) : Bool :=
  let joinNeeded := !(q.channelsSubscribedByUser == 0) || q.excludeDMs
  let chanOk :=
    if joinNeeded then
      match db.channels.find? (fun c => c.id == m.channelId) with
      | none => false
      | some c =>
        (q.channelsSubscribedByUser == 0 || c.isForced ||
          db.subscriptions.any (fun p =>
            p.1 == q.channelsSubscribedByUser && p.2 == c.id)) &&
        (!q.excludeDMs || c.isPublic)
    else true
  m.deletedAt == none && chanOk
    && (q.channel == 0 || m.channelId == q.channel)
    && (q.user == 0 || m.userId == q.user)
    && timeOk q m

/-- Insert into a sorted list, keeping earlier rows first on ties
(stable, like SQL's deterministic tie-breaking is left unspecified). -/
def insertByLe {α : Type} (le : α → α → Bool) (a : α) : List α → List α
  | [] => [a]
  | b :: l => if le a b then a :: b :: l else b :: insertByLe le a l

/-- Insertion sort, modelling an ORDER BY clause. -/
def sortByLe {α : Type} (le : α → α → Bool) : List α → List α
  | [] => []
  | a :: l => insertByLe le a (sortByLe le l)

/-- ORDER BY messages.created_at (ASC or DESC). -/
def sortByCreated (asc : Bool) (l : List Message) : List Message :=
  if asc then sortByLe (fun a b => decide (a.createdAt ≤ b.createdAt)) l
  else sortByLe (fun a b => decide (b.createdAt ≤ a.createdAt)) l

/-- General-path row set of `GetMessages` after filtering, ordering and
the OFFSET clause, before the LIMIT clause. -/
def generalRows (db : DB) (q : MessagesQuery) : List Message :=
  let rows := sortByCreated q.asc (db.messages.filter (generalMatch db q))
  if 0 < q.offset then rows.drop q.offset.toNat else rows

/-- Embedding of `GormRepository.GetMessages`: the specialized activity path returns
the raw rows, trimming one row when the count exceeds the limit; the
general path fetches limit+1 rows and trims the extra one. -/
def getMessages (db : DB) (q : MessagesQuery) : List Message × Bool :=
  if specialPath q then
    let rows := activityRows db
    if q.limit < (rows.length : Int) then (rows.dropLast, true) else (rows, false)
  else
    let rows := generalRows db q
    if 0 < q.limit then
      let page := rows.take (q.limit.toNat + 1)
      if q.limit < (page.length : Int) then (page.dropLast, true) else (page, false)
    else (rows, false)

/-- Key predicate of the (user, message) unread marker. -/
def unreadKey (userId messageId : UUID) (u : Unread) : Bool :=
  u.userId == userId && u.messageId == messageId

/-- The keyed UPDATE issued when the marker already exists: set only
the noticeable flag of the matching rows. -/
def setNoticeable (userId messageId : UUID) (noticeable : Bool) (l : List Unread) :
    List Unread :=
  l.map (fun u =>
    if unreadKey userId messageId u then { u with noticeable := noticeable } else u)

/-- Embedding of `GormRepository.SetMessageUnread`: reject nil ids; inside one
transaction, `First` the marker — if absent insert a new one, else
update only its noticeable flag; publish `MessageUnread` only on the
insert path. -/
def setMessageUnread (s : Sys) (userId messageId : UUID) (noticeable : Bool) :
    Except RepoError Sys :=
  if userId == 0 || messageId == 0 then .error .nilId
  else
    match s.db.unreads.find? (unreadKey userId messageId) with
    | none =>
      let db2 : DB :=
        { s.db with
          unreads := s.db.unreads ++
            [{ userId := userId, messageId := messageId, noticeable := noticeable }] }
      .ok { db := db2,
            events := s.events ++ [.messageUnread messageId userId noticeable] }
    | some _ =>
      let db2 : DB :=
        { s.db with
          unreads := setNoticeable userId messageId noticeable s.db.unreads }
      .ok { db := db2, events := s.events }

/-- One output row of the raw SQL in
`GetChannelLatestMessagesByUserID`: the pointer row joined to its
message and channel, kept only when the channel is live and public, the
message is not deleted, and (in subscribe-only mode) the channel is
forced or subscribed by the user. -/
def latestJoinRow (db : DB) (userId : UUID) (subscribeOnly : Bool)
    (clm : ChannelLatestMessage) : Option (Time × Message) :=
  match db.messages.find? (fun m => m.id == clm.messageId),
        db.channels.find? (fun c => c.id == clm.channelId) with
  | some m, some c =>
    if c.deletedAt == none && c.isPublic && m.deletedAt == none &&
        (!subscribeOnly || c.isForced ||
          db.subscriptions.any (fun p => p.1 == userId && p.2 == c.id)) then
      some (clm.dateTime, m)
    else none
  | _, _ => none

/-- Embedding of `GormRepository.GetChannelLatestMessagesByUserID`: join the pointer
table to messages and channels, order by pointer timestamp descending,
apply the LIMIT when positive. -/
def getChannelLatestMessagesByUserID (db : DB) (userId : UUID) (limit : Int)
    (subscribeOnly : Bool) : List Message :=
  let rows := db.channelLatest.filterMap (latestJoinRow db userId subscribeOnly)
  let sorted := (sortByLe (fun a b => decide (b.1 ≤ a.1)) rows).map Prod.snd
  if 0 < limit then sorted.take limit.toNat else sorted

/-- Key predicate of the (message, stamp, user) reaction counter. -/
def stampKey (messageId stampId userId : UUID) (t : MessageStamp) : Bool :=
  t.messageId == messageId && t.stampId == stampId && t.userId == userId

/-- The counter upsert issued by `AddStampToMessage`: `ON CONFLICT` adds
`count` to every row with the key and refreshes `updated_at`; with no
conflicting row a fresh row holding `count` is inserted. -/
def stampUpsert (messageId stampId userId : UUID) (count : Int) (now : Time)
    (l : List MessageStamp) : List MessageStamp :=
  if l.any (stampKey messageId stampId userId) then
    l.map (fun t =>
      if stampKey messageId stampId userId t then
        { t with count := t.count + count, updatedAt := now }
      else t)
  else
    l ++ [{ messageId := messageId, stampId := stampId, userId := userId,
            count := count, createdAt := now, updatedAt := now }]

/-- Embedding of `GormRepository.AddStampToMessage`: reject nil ids; upsert the
counter row; optimistically re-read the row; publish `MessageStamped`
with the post-increment count.  No clamping of any kind is applied to
`count`. -/
def addStampToMessage (s : Sys) (messageId stampId userId : UUID) (count : Int) :
    Except RepoError (MessageStamp × Sys) :=
  if messageId == 0 || stampId == 0 || userId == 0 then .error .nilId
  else
    let rows := stampUpsert messageId stampId userId count s.db.now s.db.messageStamps
    match rows.find? (stampKey messageId stampId userId) with
    | none => .error .recordNotFound
    | some ms =>
      .ok (ms,
        { db := { s.db with messageStamps := rows },
          events := s.events ++
            [.messageStamped messageId stampId userId ms.count ms.createdAt] })

/-- Embedding of `GormRepository.RemoveStampFromMessage`: reject nil ids; delete the
counter row; publish `MessageUnstamped` only when at least one row was
actually deleted. -/
def removeStampFromMessage (s : Sys) (messageId stampId userId : UUID) :
    Except RepoError Sys :=
  if messageId == 0 || stampId == 0 || userId == 0 then .error .nilId
  else
    let db := s.db
    let removed := db.messageStamps.countP (stampKey messageId stampId userId)
    let rows := db.messageStamps.filter (fun t => !(stampKey messageId stampId userId t))
    let db2 : DB := { db with messageStamps := rows }
    if 0 < removed then
      .ok { db := db2, events := s.events ++ [.messageUnstamped messageId stampId userId] }
    else
      .ok { db := db2, events := s.events }

/-! ## Helper lemmas about the row-list primitives -/

/-- A keyed UPDATE that preserves the row scope commutes with a scoped
lookup: finding after the update returns the updated row. -/
theorem find?_map_update {α : Type} (p : α → Bool) (f : α → α)
    (hf : ∀ x, p x = true → p (f x) = true) :
    ∀ l : List α,
      (l.map (fun x => if p x then f x else x)).find? p = (l.find? p).map f := by
  intro l
  induction l with
  | nil => rfl
  | cons a l ih =>
    by_cases hp : p a = true
    · simp [List.find?_cons, hp, hf a hp]
    · simp only [Bool.not_eq_true] at hp
      simp [List.find?_cons, hp, ih]

/-- A keyed UPDATE that takes every matching row out of scope (such as a
soft delete) makes the scoped lookup fail. -/
theorem find?_map_erase {α : Type} (p : α → Bool) (f : α → α)
    (hf : ∀ x, p x = true → p (f x) = false) :
    ∀ l : List α, (l.map (fun x => if p x then f x else x)).find? p = none := by
  intro l
  induction l with
  | nil => rfl
  | cons a l ih =>
    by_cases hp : p a = true
    · simp [List.find?_cons, hp, hf a hp, ih]
    · simp only [Bool.not_eq_true] at hp
      simp [List.find?_cons, hp, ih]

/-- Replacing every matching row by `c` makes the first match `c`. -/
theorem find?_map_replace {α : Type} (p : α → Bool) (c : α) (hc : p c = true) :
    ∀ l : List α, l.any p = true →
      (l.map (fun x => if p x then c else x)).find? p = some c := by
  intro l
  induction l with
  | nil => simp
  | cons a l ih =>
    intro hany
    by_cases hp : p a = true
    · simp [List.find?_cons, hp, hc]
    · simp only [Bool.not_eq_true] at hp
      simp only [List.any_cons, hp, Bool.false_or] at hany
      simp [List.find?_cons, hp, ih hany]

/-- The text edit keeps rows in scope, so the scoped lookup after the
edit returns the edited row. -/
theorem find?_editText (messageId : UUID) (text : String) (now : Time)
    (l : List Message) :
    (editText messageId text now l).find? (msgScope messageId) =
      (l.find? (msgScope messageId)).map
        (fun m => { m with text := text, updatedAt := now }) := by
  unfold editText
  refine find?_map_update _ _ ?_ l
  intro x hx
  simpa [msgScope] using hx

/-- The soft delete takes every in-scope row out of scope, so the
scoped lookup afterwards fails. -/
theorem find?_softDeleteMsg (messageId : UUID) (now : Time) (l : List Message) :
    (softDeleteMsg messageId now l).find? (msgScope messageId) = none := by
  unfold softDeleteMsg
  refine find?_map_erase _ _ ?_ l
  intro x hx
  simp [msgScope]

/-- A row map that never changes whether a row matches the key leaves
the keyed row count unchanged. -/
theorem countP_map_invariant {α : Type} (p : α → Bool) (g : α → α)
    (hg : ∀ x, p (g x) = p x) (l : List α) :
    (l.map g).countP p = l.countP p := by
  induction l with
  | nil => rfl
  | cons a l ih => simp [List.countP_cons, hg, ih]

/-- The pointer upsert always leaves the upserted row as the one the
channel-keyed lookup returns. -/
theorem find?_clmUpsert (rows : List ChannelLatestMessage) (clm : ChannelLatestMessage) :
    (clmUpsert rows clm).find? (fun r => r.channelId == clm.channelId) = some clm := by
  unfold clmUpsert
  by_cases hany : rows.any (fun r => r.channelId == clm.channelId) = true
  · rw [if_pos hany]
    exact find?_map_replace _ _ (by simp) _ hany
  · rw [if_neg hany, List.find?_append]
    have h2 : rows.find? (fun r => r.channelId == clm.channelId) = none := by
      rw [List.find?_eq_none]
      intro x hx
      simpa using List.any_eq_false.mp (eq_false_of_ne_true hany) x hx
    rw [h2]
    simp

/-! ## Concrete fixtures used by witnesses and counterexamples -/

/-- A live public channel with id 1. -/
def wChannel : Channel := { id := 1, isPublic := true, isForced := false, deletedAt := none }

/-- A message with id 10 in channel 1, created at time 1. -/
def wMsg : Message :=
  { id := 10, userId := 2, channelId := 1, text := "m1",
    createdAt := 1, updatedAt := 1, deletedAt := none }

/-- An empty store containing only channel 1, at time 1, with fresh id 10. -/
def wEmptyDB : DB :=
  { messages := [], archived := [], channelLatest := [], unreads := [], pins := [],
    clipFolderMessages := [], messageStamps := [], channels := [wChannel],
    subscriptions := [], now := 1, nextId := 10 }

/-- System state over the empty store with no events published yet. -/
def wEmptySys : Sys := { db := wEmptyDB, events := [] }

/-- A store holding just `wMsg`, with fresh id 11. -/
def wOneMsgDB : DB :=
  { wEmptyDB with
    messages := [wMsg]
    channelLatest := [{ channelId := 1, messageId := 10, dateTime := 1 }]
    nextId := 11 }

/-- System state over the one-message store. -/
def wOneMsgSys : Sys := { db := wOneMsgDB, events := [] }

/-! ## Claim theorems -/

/-- C10: `GetMessageByID` maps the nil id to `ErrNotFound` (not
`ErrNilID`) without consulting the store: for every database — even one
holding a row whose id is the nil value — the read returns `notFound`. -/
theorem getMessageByID_nil_notFound :
    (∀ db : DB, getMessageByID db 0 = .error .notFound) ∧
      RepoError.notFound ≠ RepoError.nilId := by
  constructor
  · intro db
    rfl
  · intro h
    cases h

/-- C2: events are published strictly after the enclosing transaction
commits.  The first two conjuncts characterise the transaction-publish
combinator `runTx`: a failing body propagates its error and leaves the
event log untouched (rollback), while a successful body appends the
events to the log after the new database is installed.  The remaining
conjuncts show that `CreateMessage`, `UpdateMessage` and
`DeleteMessage` are, past their nil-id guards, exactly this combinator
applied to their transaction bodies. -/
theorem events_published_only_after_commit :
    (∀ (α : Type) (s : Sys) (body : DB → Except RepoError (DB × α))
        (pub : α → List Event) (e : RepoError),
        body s.db = .error e → runTx s body pub = .error e) ∧
    (∀ (α : Type) (s : Sys) (body : DB → Except RepoError (DB × α))
        (pub : α → List Event) (db2 : DB) (a : α),
        body s.db = .ok (db2, a) →
        runTx s body pub = .ok (a, { db := db2, events := s.events ++ pub a })) ∧
    (∀ (parse : String → List UUID) (s : Sys) (userId channelId : UUID) (text : String),
        (userId == 0 || channelId == 0) = false →
        createMessage parse s userId channelId text =
          runTx s (createTx userId channelId text) (createEvents parse)) ∧
    (∀ (s : Sys) (messageId : UUID) (text : String), (messageId == 0) = false →
        updateMessage s messageId text =
          runTx s (updateTx messageId text) (updateEvents messageId)) ∧
    (∀ (s : Sys) (messageId : UUID), (messageId == 0) = false →
        deleteMessage s messageId =
          runTx s (deleteTx messageId) (deleteEvents messageId)) := by
  refine ⟨?_, ?_, ?_, ?_, ?_⟩
  · intro α s body pub e h
    simp [runTx, h]
  · intro α s body pub db2 a h
    simp [runTx, h]
  · intro parse s userId channelId text h
    simp [createMessage, h]
  · intro s messageId text h
    simp [updateMessage, h]
  · intro s messageId h
    simp [deleteMessage, h]

/-- Closed witness for C2: a failing body at a concrete state yields the
error and no event; the three mutators at concrete non-nil arguments
coincide with the combinator. -/
theorem events_published_only_after_commit_witness :
    (runTx (α := Nat) wOneMsgSys (fun _ => .error .notFound) (fun _ => []) =
      .error .notFound) ∧
    (createMessage (fun _ => []) wOneMsgSys 2 1 "hi" =
      runTx wOneMsgSys (createTx 2 1 "hi") (createEvents (fun _ => []))) ∧
    (updateMessage wOneMsgSys 10 "x" =
      runTx wOneMsgSys (updateTx 10 "x") (updateEvents 10)) ∧
    (deleteMessage wOneMsgSys 10 =
      runTx wOneMsgSys (deleteTx 10) (deleteEvents 10)) :=
  ⟨events_published_only_after_commit.1 Nat wOneMsgSys _ _ .notFound rfl,
   events_published_only_after_commit.2.2.1 (fun _ => []) wOneMsgSys 2 1 "hi" (by decide),
   events_published_only_after_commit.2.2.2.1 wOneMsgSys 10 "x" (by decide),
   events_published_only_after_commit.2.2.2.2 wOneMsgSys 10 (by decide)⟩

/-- C1: for non-nil author and channel ids, a successful
`CreateMessage` followed by `GetMessageByID` of the returned id yields
a message whose author, channel and text equal the arguments and whose
creation time is non-null, and the `ChannelLatestMessage` row for that
channel holds the new message's id and creation time.  The hypotheses
state that the freshly generated uuid is indeed fresh and non-nil
(`uuid.NewV4`) and that the wall clock is past the zero time. -/
theorem createMessage_then_read
    (parse : String → List UUID) (s : Sys) (userId channelId : UUID) (text : String)
    (huid : userId ≠ 0) (hcid : channelId ≠ 0)
    (hfresh : ∀ m ∈ s.db.messages, m.id ≠ s.db.nextId)
    (hid : s.db.nextId ≠ 0) (hnow : s.db.now ≠ 0) :
    ∃ (m : Message) (s2 : Sys),
      createMessage parse s userId channelId text = .ok (m, s2) ∧
      getMessageByID s2.db m.id = .ok m ∧
      m.userId = userId ∧ m.channelId = channelId ∧ m.text = text ∧
      m.createdAt ≠ 0 ∧
      s2.db.channelLatest.find? (fun r => r.channelId == channelId) =
        some { channelId := channelId, messageId := m.id, dateTime := m.createdAt } := by
  have hguard : (userId == 0 || channelId == 0) = false := by
    simp [huid, hcid]
  have hmid : ((s.db.nextId : UUID) == 0) = false := by simp [hid]
  have h1 : s.db.messages.find? (msgScope s.db.nextId) = none := by
    rw [List.find?_eq_none]
    intro x hx
    simp only [msgScope, Bool.and_eq_true, beq_iff_eq, not_and]
    intro hxid
    exact absurd hxid (hfresh x hx)
  refine ⟨newMsg s.db userId channelId text,
    { db :=
        { s.db with
          messages := s.db.messages ++ [newMsg s.db userId channelId text]
          channelLatest := clmUpsert s.db.channelLatest
            { channelId := channelId, messageId := s.db.nextId, dateTime := s.db.now }
          nextId := s.db.nextId + 1 },
      events := s.events ++ createEvents parse (newMsg s.db userId channelId text) },
    ?_, ?_, rfl, rfl, rfl, hnow, ?_⟩
  · show createMessage parse s userId channelId text = _
    unfold createMessage
    rw [hguard]
    rfl
  · show getMessageByID _ _ = _
    simp only [getMessageByID, newMsg, hmid, Bool.false_eq_true, if_false,
      List.find?_append, h1, Option.none_or]
    simp [msgScope]
  · show List.find? _ (clmUpsert _ _) = _
    exact find?_clmUpsert s.db.channelLatest
      { channelId := channelId, messageId := s.db.nextId, dateTime := s.db.now }

/-- Closed witness for C1 at the empty store. -/
theorem createMessage_then_read_witness :
    ∃ (m : Message) (s2 : Sys),
      createMessage (fun _ => []) wEmptySys 2 1 "hello" = .ok (m, s2) ∧
      getMessageByID s2.db m.id = .ok m ∧
      m.userId = 2 ∧ m.channelId = 1 ∧ m.text = "hello" ∧
      m.createdAt ≠ 0 ∧
      s2.db.channelLatest.find? (fun r => r.channelId == 1) =
        some { channelId := 1, messageId := m.id, dateTime := m.createdAt } :=
  createMessage_then_read (fun _ => []) wEmptySys 2 1 "hello"
    (by decide) (by decide) (by simp [wEmptySys, wEmptyDB]) (by decide) (by decide)

/-- C3: every successful `UpdateMessage` appends exactly one new
`ArchivedMessage` row, and that row's stored text is the message's text
as it was before the update (the text of the row the transaction loaded
first), never the post-update text: the returned post-edit row carries
the new text, while the archive carries the old one.  The archival
write precedes the mutation inside the transaction, which is why the
snapshot taken is of the pre-edit row. -/
theorem updateMessage_archives_pre_edit_text
    (s : Sys) (messageId : UUID) (text : String) (old mNew : Message) (s2 : Sys)
    (h : updateMessage s messageId text = .ok ((old, mNew), s2)) :
    s2.db.archived = s.db.archived ++
      [{ id := s.db.nextId, messageId := old.id, userId := old.userId,
         text := old.text, dateTime := old.updatedAt }] ∧
    s.db.messages.find? (msgScope messageId) = some old ∧
    mNew.text = text ∧
    mNew = { old with text := text, updatedAt := s.db.now } := by
  unfold updateMessage at h
  by_cases hnil : (messageId == 0) = true
  · rw [if_pos hnil] at h
    simp at h
  · rw [if_neg hnil] at h
    unfold runTx updateTx at h
    rcases hfind : s.db.messages.find? (msgScope messageId) with _ | old2
    · rw [hfind] at h
      simp at h
    · rw [hfind] at h
      dsimp only at h
      rw [find?_editText, hfind] at h
      simp only [Option.map] at h
      simp only [Except.ok.injEq, Prod.mk.injEq] at h
      obtain ⟨⟨hold, hnew⟩, hs2⟩ := h
      subst hold
      subst hnew
      subst hs2
      exact ⟨rfl, rfl, rfl, rfl⟩

/-- The row `wMsg` after the edit applied in C3's witness. -/
def wMsgEdited : Message := { wMsg with text := "edited", updatedAt := 1 }

/-- System state after C3's witness edit. -/
def wEditedSys : Sys :=
  { db :=
      { wOneMsgDB with
        archived := [{ id := 11, messageId := 10, userId := 2, text := "m1", dateTime := 1 }]
        messages := [wMsgEdited]
        nextId := 12 },
    events := [.messageUpdated 10 wMsg wMsgEdited] }

/-- Closed witness for C3: editing the one-message store archives the
old text. -/
theorem updateMessage_archives_pre_edit_text_witness :
    wEditedSys.db.archived = wOneMsgSys.db.archived ++
      [{ id := 11, messageId := 10, userId := 2, text := "m1", dateTime := 1 }] ∧
    wOneMsgSys.db.messages.find? (msgScope 10) = some wMsg ∧
    wMsgEdited.text = "edited" ∧
    wMsgEdited = { wMsg with text := "edited", updatedAt := 1 } :=
  updateMessage_archives_pre_edit_text wOneMsgSys 10 "edited" wMsg wMsgEdited
    wEditedSys (by rfl)

/-- C4: a successful `DeleteMessage` removes — in the same transaction
as the soft delete — every unread marker, pin record and clip-folder
association referencing the message; afterwards `GetMessageByID`
returns `notFound`, and a second `DeleteMessage` also returns
`notFound` rather than crashing. -/
theorem deleteMessage_cascades_and_idempotent
    (s : Sys) (messageId : UUID) (m : Message) (unreadRows : List Unread) (s2 : Sys)
    (h : deleteMessage s messageId = .ok ((m, unreadRows), s2)) :
    (∀ u ∈ s2.db.unreads, u.messageId ≠ messageId) ∧
    (∀ p ∈ s2.db.pins, p.messageId ≠ messageId) ∧
    (∀ c ∈ s2.db.clipFolderMessages, c.messageId ≠ messageId) ∧
    getMessageByID s2.db messageId = .error .notFound ∧
    deleteMessage s2 messageId = .error .notFound := by
  unfold deleteMessage at h
  by_cases hnil : (messageId == 0) = true
  · rw [if_pos hnil] at h
    simp at h
  · rw [if_neg hnil] at h
    unfold runTx deleteTx at h
    rcases hfind : s.db.messages.find? (msgScope messageId) with _ | m2
    · rw [hfind] at h
      simp at h
    · rw [hfind] at h
      dsimp only at h
      simp only [Except.ok.injEq, Prod.mk.injEq] at h
      obtain ⟨⟨hm, hun⟩, hs2⟩ := h
      subst hm
      subst hun
      subst hs2
      refine ⟨?_, ?_, ?_, ?_, ?_⟩
      · intro u hu
        simpa using (List.mem_filter.mp hu).2
      · intro p hp
        simpa using (List.mem_filter.mp hp).2
      · intro c hc
        simpa using (List.mem_filter.mp hc).2
      · unfold getMessageByID
        rw [if_neg hnil]
        dsimp only
        rw [find?_softDeleteMsg]
        rfl
      · unfold deleteMessage
        rw [if_neg hnil]
        unfold runTx deleteTx
        dsimp only
        rw [find?_softDeleteMsg]
        rfl

/-- Store for C4's witness: one message referenced by two unread
markers, one pin and one clip association. -/
def wCascadeSys : Sys :=
  { db :=
      { wOneMsgDB with
        unreads := [{ userId := 7, messageId := 10, noticeable := false },
                    { userId := 8, messageId := 10, noticeable := true }]
        pins := [{ id := 4, messageId := 10 }]
        clipFolderMessages := [{ folderId := 5, messageId := 10 }] },
    events := [] }

/-- C4's witness store after the delete: the message is soft-deleted
and every referencing row is gone. -/
def wCascadeDeletedSys : Sys :=
  { db :=
      { wOneMsgDB with
        messages := [{ wMsg with deletedAt := some 1 }]
        unreads := []
        pins := []
        clipFolderMessages := [] },
    events := [.messageDeleted 10 wMsg
      [{ userId := 7, messageId := 10, noticeable := false },
       { userId := 8, messageId := 10, noticeable := true }]] }

/-- Closed witness for C4 at the populated store. -/
theorem deleteMessage_cascades_and_idempotent_witness :
    (∀ u ∈ wCascadeDeletedSys.db.unreads, u.messageId ≠ 10) ∧
    (∀ p ∈ wCascadeDeletedSys.db.pins, p.messageId ≠ 10) ∧
    (∀ c ∈ wCascadeDeletedSys.db.clipFolderMessages, c.messageId ≠ 10) ∧
    getMessageByID wCascadeDeletedSys.db 10 = .error .notFound ∧
    deleteMessage wCascadeDeletedSys 10 = .error .notFound :=
  deleteMessage_cascades_and_idempotent wCascadeSys 10 wMsg
    [{ userId := 7, messageId := 10, noticeable := false },
     { userId := 8, messageId := 10, noticeable := true }]
    wCascadeDeletedSys (by rfl)

/-- C6: `SetMessageUnread` is an idempotent upsert.  Starting from a
state with no marker for the (user, message) pair, the first call
inserts one marker and publishes one `MessageUnread` event; the second
call with the same arguments finds the marker, updates only its
noticeable flag and publishes nothing, so after two calls there is
exactly one marker row for the pair and exactly one `MessageUnread`
event on the hub. -/
theorem setMessageUnread_idempotent_upsert
    (s : Sys) (userId messageId : UUID) (noticeable : Bool)
    (hu : userId ≠ 0) (hm : messageId ≠ 0)
    (hnone : s.db.unreads.find? (unreadKey userId messageId) = none) :
    ∃ s1 s2,
      setMessageUnread s userId messageId noticeable = .ok s1 ∧
      setMessageUnread s1 userId messageId noticeable = .ok s2 ∧
      s1.db.unreads.countP (unreadKey userId messageId) = 1 ∧
      s2.db.unreads.countP (unreadKey userId messageId) = 1 ∧
      s1.events = s.events ++ [.messageUnread messageId userId noticeable] ∧
      s2.events = s1.events := by
  have hguard : (userId == 0 || messageId == 0) = false := by simp [hu, hm]
  have h0 : s.db.unreads.countP (unreadKey userId messageId) = 0 :=
    List.countP_eq_zero.mpr (fun a ha => List.find?_eq_none.mp hnone a ha)
  have hsn : ∀ l : List Unread,
      (setNoticeable userId messageId noticeable l).countP (unreadKey userId messageId) =
        l.countP (unreadKey userId messageId) := by
    intro l
    refine countP_map_invariant _ _ ?_ l
    intro u
    by_cases hx : unreadKey userId messageId u = true
    · rw [if_pos hx]
      rfl
    · rw [if_neg hx]
  have hmarker : (unreadKey userId messageId)
      { userId := userId, messageId := messageId, noticeable := noticeable } = true := by
    simp [unreadKey]
  refine ⟨?_, ?_, ?_, ?_, ?_, ?_, ?_, ?_⟩
  case _ =>
    exact
      { db := { s.db with unreads := s.db.unreads ++ [{ userId := userId, messageId := messageId, noticeable := noticeable }] },
        events := s.events ++ [.messageUnread messageId userId noticeable] }
  case _ =>
    exact
      { db := { s.db with unreads := setNoticeable userId messageId noticeable (s.db.unreads ++ [{ userId := userId, messageId := messageId, noticeable := noticeable }]) },
        events := s.events ++ [.messageUnread messageId userId noticeable] }
  · unfold setMessageUnread
    rw [hguard, hnone]
    rfl
  · unfold setMessageUnread
    rw [hguard]
    dsimp only
    rw [List.find?_append, hnone, Option.none_or]
    rw [show List.find? (unreadKey userId messageId)
        [{ userId := userId, messageId := messageId, noticeable := noticeable }] =
        some { userId := userId, messageId := messageId, noticeable := noticeable } by
      simp [List.find?, hmarker]]
    rfl
  · dsimp only
    rw [List.countP_append, h0]
    simp [hmarker]
  · dsimp only
    rw [hsn, List.countP_append, h0]
    simp [hmarker]
  · rfl
  · rfl

/-- Closed witness for C6 at the one-message store with no markers. -/
theorem setMessageUnread_idempotent_upsert_witness :
    ∃ s1 s2,
      setMessageUnread wOneMsgSys 7 10 false = .ok s1 ∧
      setMessageUnread s1 7 10 false = .ok s2 ∧
      s1.db.unreads.countP (unreadKey 7 10) = 1 ∧
      s2.db.unreads.countP (unreadKey 7 10) = 1 ∧
      s1.events = wOneMsgSys.events ++ [.messageUnread 10 7 false] ∧
      s2.events = s1.events :=
  setMessageUnread_idempotent_upsert wOneMsgSys 7 10 false
    (by decide) (by decide) (by rfl)

/-- Store with three live messages in the public channel 1. -/
def wThreeMsgDB : DB :=
  { wEmptyDB with
    messages := [wMsg, { wMsg with id := 11, createdAt := 2, updatedAt := 2 },
                 { wMsg with id := 12, createdAt := 3, updatedAt := 3 }]
    channelLatest := [{ channelId := 1, messageId := 12, dateTime := 3 }]
    nextId := 13 }

/-- The activity-feed query: public channels only, no other filter,
limit 1. -/
def wActivityQuery : MessagesQuery :=
  { channel := 0, user := 0, channelsSubscribedByUser := 0, sinceTime := none,
    untilTime := none, inclusive := false, limit := 1, offset := 0, asc := false,
    excludeDMs := true, disablePreload := true }

/-- C5 counterexample: on the specialized activity path the raw SQL
carries no LIMIT clause (gorm does not merge `Limit(limit+1)` into a
`Raw` query), so with three matching rows and `limit = 1` the code
returns two messages — more than the requested limit. -/
theorem getMessages_limit_counterexample :
    wActivityQuery.limit = 1 ∧
    (getMessages wThreeMsgDB wActivityQuery).1.length = 2 := by decide

/-- C5 amended: on the general path, `GetMessages` with limit N > 0
returns at most N messages and reports hasMore exactly when strictly
more than N rows match the query (after the offset), via the
fetch-N+1-and-trim look-ahead.  On the specialized activity path the
hasMore flag is still exact, but the raw SQL has no limit clause, so
when more than N rows match the code returns all of them but one. -/
theorem getMessages_limit_lookahead (db : DB) (q : MessagesQuery)
    (hlim : 0 < q.limit) :
    (specialPath q = false →
      ((getMessages db q).1.length : Int) ≤ q.limit ∧
      ((getMessages db q).2 = true ↔ q.limit < ((generalRows db q).length : Int))) ∧
    (specialPath q = true →
      ((getMessages db q).2 = true ↔ q.limit < ((activityRows db).length : Int)) ∧
      (getMessages db q).1.length =
        (if q.limit < ((activityRows db).length : Int)
          then (activityRows db).length - 1 else (activityRows db).length)) := by
  obtain ⟨n, hn⟩ : ∃ n : Nat, q.limit = (n : Int) :=
    ⟨q.limit.toNat, (Int.toNat_of_nonneg (le_of_lt hlim)).symm⟩
  constructor
  · intro hsp
    unfold getMessages
    rw [hsp]
    simp only [Bool.false_eq_true, if_false]
    rw [if_pos hlim]
    have hlen : ((generalRows db q).take (q.limit.toNat + 1)).length =
        min (q.limit.toNat + 1) (generalRows db q).length := List.length_take _ _
    by_cases hc : q.limit < (((generalRows db q).take (q.limit.toNat + 1)).length : Int)
    · rw [if_pos hc]
      dsimp only
      rw [hlen, hn] at hc
      constructor
      · rw [List.length_dropLast, hlen, hn]
        push_cast at hc ⊢
        omega
      · simp only [true_iff]
        rw [hn]
        push_cast at hc ⊢
        omega
    · rw [if_neg hc]
      dsimp only
      rw [hlen, hn] at hc
      constructor
      · rw [hlen, hn]
        push_cast at hc ⊢
        omega
      · simp only [Bool.false_eq_true, false_iff]
        rw [hn]
        push_cast at hc ⊢
        omega
  · intro hsp
    unfold getMessages
    rw [hsp]
    simp only [if_true]
    by_cases hc : q.limit < ((activityRows db).length : Int)
    · rw [if_pos hc, if_pos hc]
      exact ⟨by simpa using hc, by rw [List.length_dropLast]⟩
    · rw [if_neg hc, if_neg hc]
      exact ⟨by simp [hc], rfl⟩

/-- Closed witness for the amended C5 at the three-message store. -/
theorem getMessages_limit_lookahead_witness :
    (specialPath wActivityQuery = false →
      ((getMessages wThreeMsgDB wActivityQuery).1.length : Int) ≤ wActivityQuery.limit ∧
      ((getMessages wThreeMsgDB wActivityQuery).2 = true ↔
        wActivityQuery.limit < ((generalRows wThreeMsgDB wActivityQuery).length : Int))) ∧
    (specialPath wActivityQuery = true →
      ((getMessages wThreeMsgDB wActivityQuery).2 = true ↔
        wActivityQuery.limit < ((activityRows wThreeMsgDB).length : Int)) ∧
      (getMessages wThreeMsgDB wActivityQuery).1.length =
        (if wActivityQuery.limit < ((activityRows wThreeMsgDB).length : Int)
          then (activityRows wThreeMsgDB).length - 1
          else (activityRows wThreeMsgDB).length)) :=
  getMessages_limit_lookahead wThreeMsgDB wActivityQuery (by decide)

/-- C7 scenario, message M2 created at time 2 in channel 1. -/
def c7M2 : Message :=
  { id := 11, userId := 3, channelId := 1, text := "m2",
    createdAt := 2, updatedAt := 2, deletedAt := none }

/-- C7 scenario, state after creating M1 (= `wMsg`) at time 1. -/
def c7S1 : Sys := { db := wOneMsgDB, events := [.messageCreated 10 wMsg []] }

/-- C7 scenario, clock advanced to time 2 before creating M2. -/
def c7S1b : Sys := { db := { wOneMsgDB with now := 2 }, events := c7S1.events }

/-- C7 scenario, state after creating M2 at time 2. -/
def c7S2 : Sys :=
  { db :=
      { wOneMsgDB with
        messages := [wMsg, c7M2]
        channelLatest := [{ channelId := 1, messageId := 11, dateTime := 2 }]
        now := 2
        nextId := 12 },
    events := c7S1.events ++ [.messageCreated 11 c7M2 []] }

/-- C7 scenario, state after deleting M2. -/
def c7S3 : Sys :=
  { db := { c7S2.db with messages := [wMsg, { c7M2 with deletedAt := some 2 }] },
    events := c7S2.events ++ [.messageDeleted 11 c7M2 []] }

/-- C7 scenario, clock advanced to time 3 before creating M3. -/
def c7S3b : Sys := { db := { c7S3.db with now := 3 }, events := c7S3.events }

/-- C7 scenario, message M3 created at time 3 in channel 1. -/
def c7M3 : Message :=
  { id := 12, userId := 4, channelId := 1, text := "m3",
    createdAt := 3, updatedAt := 3, deletedAt := none }

/-- C7 scenario, state after creating M3. -/
def c7S4 : Sys :=
  { db :=
      { c7S3.db with
        messages := [wMsg, { c7M2 with deletedAt := some 2 }, c7M3]
        channelLatest := [{ channelId := 1, messageId := 12, dateTime := 3 }]
        now := 3
        nextId := 13 },
    events := c7S3.events ++ [.messageCreated 12 c7M3 []] }

/-- C7 counterexample: after M1 (t=1) and M2 (t=2) are created in
channel 1, `GetChannelLatestMessagesByUserID` reports M2; after M2 is
deleted, the pointer table still holds M2's row, but the read path —
whose SQL filters `m.deleted_at IS NULL` — reports nothing at all for
the channel, not M2's pointer as the claim states. -/
theorem latestPerChannel_after_delete_counterexample :
    createMessage (fun _ => []) wEmptySys 2 1 "m1" = .ok (wMsg, c7S1) ∧
    createMessage (fun _ => []) c7S1b 3 1 "m2" = .ok (c7M2, c7S2) ∧
    getChannelLatestMessagesByUserID c7S2.db 5 0 false = [c7M2] ∧
    deleteMessage c7S2 11 = .ok ((c7M2, []), c7S3) ∧
    c7S3.db.channelLatest = [{ channelId := 1, messageId := 11, dateTime := 2 }] ∧
    getChannelLatestMessagesByUserID c7S3.db 5 0 false = [] :=
  ⟨rfl, rfl, rfl, rfl, rfl, rfl⟩

/-- C7 amended: after M1 then M2 are created in channel C,
`latestPerChannel` reports M2.  Deleting M2 never touches the pointer
table (the staleness is real at the table level: the row still carries
M2's id and time), but the read path filters out deleted messages, so
channel C disappears from `latestPerChannel` — it reports nothing for
C, not M2's pointer — until a new message arrives in C and refreshes
the pointer. -/
theorem latestPerChannel_staleness_amended :
    (∀ (s : Sys) (messageId : UUID) (r : Message × List Unread) (s2 : Sys),
        deleteMessage s messageId = .ok (r, s2) →
        s2.db.channelLatest = s.db.channelLatest) ∧
    getChannelLatestMessagesByUserID c7S2.db 5 0 false = [c7M2] ∧
    c7S3.db.channelLatest = [{ channelId := 1, messageId := 11, dateTime := 2 }] ∧
    getChannelLatestMessagesByUserID c7S3.db 5 0 false = [] ∧
    createMessage (fun _ => []) c7S3b 4 1 "m3" = .ok (c7M3, c7S4) ∧
    getChannelLatestMessagesByUserID c7S4.db 5 0 false = [c7M3] := by
  refine ⟨?_, rfl, rfl, rfl, rfl, rfl⟩
  intro s messageId r s2 h
  unfold deleteMessage at h
  by_cases hnil : (messageId == 0) = true
  · rw [if_pos hnil] at h
    simp at h
  · rw [if_neg hnil] at h
    unfold runTx deleteTx at h
    rcases hfind : s.db.messages.find? (msgScope messageId) with _ | m2
    · rw [hfind] at h
      simp at h
    · rw [hfind] at h
      dsimp only at h
      simp only [Except.ok.injEq, Prod.mk.injEq] at h
      obtain ⟨hr, hs2⟩ := h
      subst hs2
      rfl

/-- Closed witness for the amended C7: the delete in the scenario left
the pointer table exactly as it was. -/
theorem latestPerChannel_staleness_amended_witness :
    c7S3.db.channelLatest = c7S2.db.channelLatest :=
  latestPerChannel_staleness_amended.1 c7S2 11 (c7M2, []) c7S3 (by rfl)

/-- A reaction-aggregate operation, for stating the count invariant
over arbitrary operation sequences. -/
inductive StampOp where
  | add (messageId stampId userId : UUID) (count : Int)
  | remove (messageId stampId userId : UUID)
deriving DecidableEq, Repr

/-- The count delta an operation applies (0 for removals). -/
def StampOp.delta : StampOp -> Int
  | .add _ _ _ c => c
  | .remove _ _ _ => 0

/-- Run one reaction operation, keeping the old state when the
operation returns an error. -/
def applyStampOp (s : Sys) : StampOp -> Sys
  | .add messageId stampId userId c =>
    match addStampToMessage s messageId stampId userId c with
    | .ok (_, s2) => s2
    | .error _ => s
  | .remove messageId stampId userId =>
    match removeStampFromMessage s messageId stampId userId with
    | .ok s2 => s2
    | .error _ => s

/-- Run a sequence of reaction operations. -/
def runStampOps (s : Sys) (ops : List StampOp) : Sys :=
  ops.foldl applyStampOp s

/-- The counter upsert keeps all counts non-negative provided the
applied delta is non-negative. -/
theorem stampUpsert_nonneg (messageId stampId userId : UUID) (c : Int) (now : Time)
    (l : List MessageStamp) (hl : forall t, t ∈ l -> 0 ≤ t.count) (hc : 0 ≤ c) :
    forall t, t ∈ stampUpsert messageId stampId userId c now l -> 0 ≤ t.count := by
  intro t ht
  unfold stampUpsert at ht
  by_cases hex : l.any (stampKey messageId stampId userId) = true
  · rw [if_pos hex] at ht
    obtain ⟨x, hx, hxt⟩ := List.mem_map.mp ht
    by_cases hk : stampKey messageId stampId userId x = true
    · rw [if_pos hk] at hxt
      subst hxt
      exact add_nonneg (hl x hx) hc
    · rw [if_neg hk] at hxt
      subst hxt
      exact hl x hx
  · rw [if_neg hex] at ht
    rcases List.mem_append.mp ht with h | h
    · exact hl t h
    · rw [List.mem_singleton] at h
      subst h
      exact hc

/-- One reaction operation with non-negative delta preserves
non-negativity of every stored count. -/
theorem applyStampOp_nonneg (s : Sys) (op : StampOp)
    (hs : forall t, t ∈ s.db.messageStamps -> 0 ≤ t.count) (hop : 0 ≤ op.delta) :
    forall t, t ∈ (applyStampOp s op).db.messageStamps -> 0 ≤ t.count := by
  cases op with
  | add messageId stampId userId c =>
    have hc : 0 ≤ c := hop
    dsimp only [applyStampOp]
    unfold addStampToMessage
    by_cases hnil : (messageId == 0 || stampId == 0 || userId == 0) = true
    · rw [if_pos hnil]
      exact hs
    · rw [if_neg hnil]
      dsimp only
      rcases hfind : (stampUpsert messageId stampId userId c s.db.now
          s.db.messageStamps).find? (stampKey messageId stampId userId) with _ | ms
      · exact hs
      · exact stampUpsert_nonneg messageId stampId userId c s.db.now
          s.db.messageStamps hs hc
  | remove messageId stampId userId =>
    dsimp only [applyStampOp]
    unfold removeStampFromMessage
    by_cases hnil : (messageId == 0 || stampId == 0 || userId == 0) = true
    · rw [if_pos hnil]
      exact hs
    · rw [if_neg hnil]
      by_cases hrem :
          0 < s.db.messageStamps.countP (stampKey messageId stampId userId)
      · rw [if_pos hrem]
        intro t ht
        exact hs t (List.mem_of_mem_filter ht)
      · rw [if_neg hrem]
        intro t ht
        exact hs t (List.mem_of_mem_filter ht)

/-- The reaction row produced by C8's counterexample call. -/
def wNegStamp : MessageStamp :=
  { messageId := 1, stampId := 2, userId := 3, count := -1, createdAt := 1, updatedAt := 1 }

/-- System state after C8's counterexample call. -/
def wNegStampSys : Sys :=
  { db := { wEmptyDB with messageStamps := [wNegStamp] },
    events := [.messageStamped 1 2 3 (-1) 1] }

/-- C8 counterexample: `AddStampToMessage` applies its delta with no
clamping or validation, so a single call with delta -1 on an empty
store silently succeeds and stores a negative count, violating the
count ≥ 0 invariant as stated. -/
theorem stamp_negative_count_counterexample :
    addStampToMessage wEmptySys 1 2 3 (-1) = .ok (wNegStamp, wNegStampSys) ∧
    wNegStamp ∈ wNegStampSys.db.messageStamps ∧ wNegStamp.count < 0 :=
  ⟨rfl, by decide, by decide⟩

/-- C8 amended: the aggregate keeps every count non-negative only for
operation sequences whose `addReaction` deltas are all non-negative;
the code itself never clamps, so a negative delta (as exhibited by the
counterexample) silently drives the stored count negative. -/
theorem stamp_counts_nonneg_of_nonneg_deltas
    (s : Sys) (ops : List StampOp)
    (hs : forall t, t ∈ s.db.messageStamps -> 0 ≤ t.count)
    (hops : forall op, op ∈ ops -> 0 ≤ op.delta) :
    forall t, t ∈ (runStampOps s ops).db.messageStamps -> 0 ≤ t.count := by
  induction ops generalizing s with
  | nil => exact hs
  | cons op ops ih =>
    have hstep := applyStampOp_nonneg s op hs (hops op (List.mem_cons_self op ops))
    exact ih (applyStampOp s op) hstep
      (fun o ho => hops o (List.mem_cons_of_mem op ho))

/-- Closed witness for the amended C8: after a non-negative add, a
removal and another add, the one stored row's count is non-negative. -/
theorem stamp_counts_nonneg_of_nonneg_deltas_witness :
    0 ≤ (MessageStamp.mk 1 2 3 2 1 1).count :=
  stamp_counts_nonneg_of_nonneg_deltas wEmptySys
    [.add 1 2 3 1, .remove 1 2 3, .add 1 2 3 2]
    (by intro t ht; cases ht) (by decide)
    (MessageStamp.mk 1 2 3 2 1 1) (by decide)

/-- The row `wMsg` after the C9 counterexample update to the empty text. -/
def wMsgEmptied : Message := { wMsg with text := "", updatedAt := 1 }

/-- System state after the C9 counterexample update. -/
def wEmptiedSys : Sys :=
  { db :=
      { wOneMsgDB with
        archived := [{ id := 11, messageId := 10, userId := 2, text := "m1", dateTime := 1 }]
        messages := [wMsgEmptied]
        nextId := 12 },
    events := [.messageUpdated 10 wMsg wMsgEmptied] }

/-- C9 counterexample: the current `UpdateMessage` has no empty-text
check, so updating an existing message to the empty string succeeds —
it archives the old text, sets the stored text to empty and publishes
`MessageUpdated` — instead of failing with an invalid-argument error
and leaving the state unchanged. -/
theorem updateMessage_empty_text_counterexample :
    updateMessage wOneMsgSys 10 "" = .ok ((wMsg, wMsgEmptied), wEmptiedSys) ∧
    wMsgEmptied.text = "" ∧
    wEmptiedSys.events ≠ wOneMsgSys.events ∧
    wEmptiedSys.db.messages ≠ wOneMsgSys.db.messages :=
  ⟨rfl, rfl, by decide, by decide⟩

/-- C9 amended: the current `UpdateMessage` rejects only a nil id; an
empty new text is accepted whenever the message exists, the update
succeeding with the stored text becoming empty.  Only the legacy
revision (`updateMessageLegacy`) rejects the empty text up front with
its "text is empty" error, before any state change. -/
theorem updateMessage_empty_text_amended (s : Sys) (messageId : UUID) (old : Message)
    (hnil : messageId ≠ 0)
    (hfind : s.db.messages.find? (msgScope messageId) = some old) :
    (∃ mNew s2, updateMessage s messageId "" = .ok ((old, mNew), s2) ∧ mNew.text = "") ∧
    updateMessageLegacy s messageId "" = .error .textEmpty := by
  have hguard : (messageId == 0) = false := by simp [hnil]
  constructor
  · refine ⟨{ old with text := "", updatedAt := s.db.now }, ?_, ?_, rfl⟩
    case _ =>
      exact
        { db :=
            { s.db with
              archived := s.db.archived ++ [{ id := s.db.nextId, messageId := old.id, userId := old.userId, text := old.text, dateTime := old.updatedAt }]
              messages := editText messageId "" s.db.now s.db.messages
              nextId := s.db.nextId + 1 },
          events := s.events ++ [.messageUpdated messageId old { old with text := "", updatedAt := s.db.now }] }
    unfold updateMessage runTx updateTx
    rw [hguard, hfind]
    dsimp only
    rw [find?_editText, hfind]
    simp only [Option.map]
    rfl
  · unfold updateMessageLegacy
    rw [hguard]
    rfl

/-- Closed witness for the amended C9 at the one-message store. -/
theorem updateMessage_empty_text_amended_witness :
    (∃ mNew s2, updateMessage wOneMsgSys 10 "" = .ok ((wMsg, mNew), s2) ∧ mNew.text = "") ∧
    updateMessageLegacy wOneMsgSys 10 "" = .error .textEmpty :=
  updateMessage_empty_text_amended wOneMsgSys 10 wMsg (by decide) (by rfl)

end Traq
